import Mathlib

/-!
# WordPress Media Optimizer — verification of the asset-transformation pipeline

Shallow embedding of the two optimizer scripts
(`wp_media_optimizer_complete-2.py` and `wp_media_optimizer_enhanced.py`).

Pure string-processing functions (filename/slug cleaning, keyword derivation,
permalink generation) are translated directly.  Stateful code is modelled with
an explicit file-system map (`FS : String → Option Nat`, path ↦ byte size) and
explicit database records; external outcomes (image decoding, encoder output
size, MySQL statement failures) enter as parameters, with database statement
failure injected as the index of the first failing statement.

Character classes follow the Python regexes over ASCII input: `\w` is
alphanumeric-or-underscore, `\s` is whitespace, `str.lower()` is ASCII
lowercasing (`Char.toLower`).
-/

namespace WpOpt

/-! ## Character classes and generic list utilities -/

/-- Python `\w`: a word character (alphanumeric or underscore). -/
def isWordChar (c : Char) : Bool := c.isAlphanum || c == '_'

/-- Characters kept by `re.sub(r'[^\w\s\-_]', '', ·)` (in `clean_filename`). -/
def keepFilenameChar (c : Char) : Bool :=
  isWordChar c || c.isWhitespace || c == '-' || c == '_'

/-- Characters kept by `re.sub(r'[^\w\s-]', '', ·)`
(`optimize_filename`, `generate_seo_slug`). -/
def keepWordSpaceDash (c : Char) : Bool := isWordChar c || c.isWhitespace || c == '-'

/-- Characters kept by `re.sub(r'[^\w\s]', '', ·)` (keyword normalisation). -/
def keepWordSpace (c : Char) : Bool := isWordChar c || c.isWhitespace

/-- Replace every maximal run of characters satisfying `p` by the single
character `r` — the effect of `re.sub(p+, r, ·)`.  The boolean argument
records whether the previous character was part of a run. -/
def collapseRuns (p : Char → Bool) (r : Char) : List Char → Bool → List Char
  | [], _ => []
  | c :: cs, inRun =>
    if p c then
      (if inRun then collapseRuns p r cs true else r :: collapseRuns p r cs true)
    else c :: collapseRuns p r cs false

def collapse (p : Char → Bool) (r : Char) (l : List Char) : List Char :=
  collapseRuns p r l false

/-- Drop characters satisfying `p` from both ends (Python `str.strip`). -/
def dropEdge (p : Char → Bool) (l : List Char) : List Char :=
  ((l.dropWhile p).reverse.dropWhile p).reverse

/-- Python `str.strip(chars)`. -/
def stripChars (cs : List Char) (l : List Char) : List Char :=
  dropEdge (fun c => cs.contains c) l

/-- Python `str.rstrip(chars)`. -/
def rstripChars (cs : List Char) (l : List Char) : List Char :=
  (l.reverse.dropWhile (fun c => cs.contains c)).reverse

/-- ASCII lowercasing, Python `str.lower()` on ASCII input. -/
def lowerAll (l : List Char) : List Char := l.map Char.toLower

/-- Python string truthiness fallback: `s or d`. -/
def pyOr (s d : String) : String := if s = "" then d else s

/-- Split a character list at every character satisfying `p`
(separators are consumed; empty groups are kept). -/
def splitOnPred (p : Char → Bool) : List Char → List (List Char)
  | [] => [[]]
  | c :: cs =>
    if p c then [] :: splitOnPred p cs
    else
      match splitOnPred p cs with
      | [] => [[c]]
      | g :: gs => (c :: g) :: gs

def splitOnCh (sep : Char) (l : List Char) : List (List Char) :=
  splitOnPred (fun c => c == sep) l

def joinWith (sep : String) : List String → String
  | [] => ""
  | [x] => x
  | x :: xs => x ++ sep ++ joinWith sep xs

/-! ## Path handling (`pathlib.Path` / `os.path` over relative POSIX paths) -/

/-- Models `Path(s).parts` for a relative path: non-empty `/`-separated components
(duplicate separators collapse, as in `pathlib`). -/
def pathComponents (s : String) : List String :=
  ((splitOnCh '/' s.data).filter (· ≠ [])).map (fun l => (⟨l⟩ : String))

/-- Models `Path(s).name`: the final component. -/
def pathName (s : String) : String := (pathComponents s).getLast?.getD ""

/-- Models `str(Path(s).parent)` for a relative path (`"."` when there is no parent). -/
def pathParent (s : String) : String :=
  let cs := (pathComponents s).dropLast
  if cs = [] then "." else joinWith "/" cs

/-- Split a name at its last dot: `some (before, after)` where `after` holds
no further dot; `none` when the name has no dot. -/
def splitLastDot : List Char → Option (List Char × List Char)
  | [] => none
  | c :: cs =>
    match splitLastDot cs with
    | some (st, sf) => some (c :: st, sf)
    | none => if c == '.' then some ([], cs) else none

/-- Models `(Path(s).stem, Path(s).suffix)`: `pathlib` counts a suffix only when the
last dot is neither the first nor the last character of the name. -/
def pathStemSuffix (s : String) : String × String :=
  let name := (pathName s).data
  match splitLastDot name with
  | some (st, sf) =>
    if st ≠ [] ∧ sf ≠ [] then ((⟨st⟩ : String), (⟨'.' :: sf⟩ : String))
    else ((⟨name⟩ : String), "")
  | none => ((⟨name⟩ : String), "")

def pathStem (s : String) : String := (pathStemSuffix s).1

def pathSuffix (s : String) : String := (pathStemSuffix s).2

def strToLower (s : String) : String := ⟨lowerAll s.data⟩

/-- Models `os.path.join(base, rel)` for a relative `rel`. -/
def osJoin (base rel : String) : String := base ++ "/" ++ rel

/-- Models `str(Path(dir) / name)`: `Path('.') / n` renders as just `n`. -/
def joinPath (dir name : String) : String :=
  if dir = "." then name else dir ++ "/" ++ name

/-- Models `SUBSTRING_INDEX(s, '/', -1)`: the part of `s` after its last `/`
(all of `s` when it has none). -/
def lastSegment (s : String) : String :=
  ⟨(s.data.reverse.takeWhile (fun c => !(c == '/'))).reverse⟩

/-- Replace non-overlapping occurrences of `pat` left to right (Python
`str.replace` / SQL `REPLACE`; an empty pattern leaves `s` unchanged,
as SQL `REPLACE` does). -/
def replaceAllAux (pat rep : List Char) : Nat → List Char → List Char
  | _, [] => []
  | 0, l => l
  | fuel + 1, c :: cs =>
    if pat.isPrefixOf (c :: cs) then
      rep ++ replaceAllAux pat rep fuel (List.drop (pat.length - 1) cs)
    else c :: replaceAllAux pat rep fuel cs

def replaceAll (s pat rep : String) : String :=
  if pat.data = [] then s else ⟨replaceAllAux pat.data rep.data s.data.length s.data⟩

/-! ## Filename / alt-text / keyword / slug cleaning

`rm : String → String` stands for the configured unwanted-pattern removal pass
(`re.sub(pattern, '', ·, flags=IGNORECASE)` folded over
`config['unwanted_patterns']`); it is a parameter because the pattern list is
arbitrary configured regexes.  Every stage after it is translated exactly. -/

/-- Models `clean_filename` (complete-2, lines 904–926), the pipeline after the
pattern removal and before the final truthiness fallback. -/
def clean_filename_core (rm : String → String) (filename : String) : String :=
  let c1 := (rm filename).data
  let c2 := c1.filter keepFilenameChar
  let c3 := collapse (fun c => c.isWhitespace) '-' c2
  let c4 := collapse (fun c => c == '-' || c == '_') '-' c3
  let c5 := stripChars ['-', '_'] c4
  ⟨lowerAll c5⟩

/-- Models `clean_filename(filename, config)`. -/
def clean_filename (rm : String → String) (filename : String) : String :=
  if filename = "" then "optimized-media"
  else pyOr (clean_filename_core rm filename) "optimized-media"

/-- Models `clean_alt_text(alt_text, config)` (complete-2, lines 928–946). -/
def clean_alt_text (rm : String → String) (alt : String) : String :=
  if alt = "" then ""
  else
    let c1 := (rm alt).data
    let c2 := collapse (fun c => c.isWhitespace) ' ' c1
    ⟨dropEdge (fun c => c.isWhitespace) c2⟩

/-- Per-category keyword normalisation inside
`process_categories_to_keywords` (complete-2, lines 948–966). -/
def keyword_of_category (cat : String) : String :=
  let k1 := lowerAll cat.data
  let k2 := k1.filter keepWordSpace
  let k3 := collapse (fun c => c.isWhitespace) '-' k2
  ⟨stripChars ['-'] k3⟩

/-- Models `process_categories_to_keywords(categories_string, max_keywords)`. -/
def process_categories_to_keywords (categories : String) (maxKeywords : Nat) :
    List String :=
  if categories = "" then []
  else
    let cats :=
      (((splitOnCh ',' categories.data).map
        (fun l => (⟨dropEdge (fun c => c.isWhitespace) l⟩ : String))).filter (· ≠ ""))
    (cats.take maxKeywords).foldl
      (fun acc cat =>
        let kw := keyword_of_category cat
        if kw ≠ "" ∧ kw.length > 2 ∧ kw ∉ acc then acc ++ [kw] else acc)
      []

/-- Models `config['permalink_settings']`. -/
structure PermalinkSettings where
  base_path : String
  max_tags : Nat
  include_timestamp : Bool
  include_asset_id : Bool

/-- Models `strptime(post_date[:10], '%Y-%m-%d').strftime('%Y%m%d')` for a
well-formed date string. -/
def dateCompact (post_date : String) : String :=
  ⟨(post_date.data.take 10).filter (fun c => !(c == '-'))⟩

/-- Models `generate_semantic_permalink(tags, asset_id, post_date, config)`
(complete-2, lines 968–996). -/
def generate_semantic_permalink (tags : List String) (asset_id : Nat)
    (post_date : String) (cfg : PermalinkSettings) : String :=
  let tag_string := if tags ≠ [] then joinWith "-" (tags.take cfg.max_tags) else "media"
  let components :=
    [tag_string]
    ++ (if cfg.include_asset_id then [toString asset_id] else [])
    ++ (if cfg.include_timestamp then [dateCompact post_date] else [])
  cfg.base_path ++ "/" ++ joinWith "-" components ++ "/"

/-- Models `config['filename_optimization']` (enhanced script).  `replace_spaces`
holds the replacement character (`none` models a falsy empty setting). -/
structure FilenameSettings where
  enabled : Bool
  max_length : Nat
  remove_special_chars : Bool
  lowercase : Bool
  replace_spaces : Option Char

def default_filename_settings : FilenameSettings :=
  { enabled := true, max_length := 200, remove_special_chars := true,
    lowercase := true, replace_spaces := some '-' }

/-- Models `optimize_filename` (enhanced, lines 958–981): the processed base name,
before the final `or "media"` fallback. -/
def optimize_filename_core (cfg : FilenameSettings) (original_name title : String) :
    String :=
  let base0 := if title ≠ "" then title.data else (pathStem original_name).data
  let base1 := if cfg.remove_special_chars then base0.filter keepWordSpaceDash else base0
  let base2 :=
    match cfg.replace_spaces with
    | some r => collapse (fun c => c.isWhitespace) r base1
    | none => base1
  let base3 := if cfg.lowercase then lowerAll base2 else base2
  let base4 := stripChars ['-', '_'] (collapse (fun c => c == '-' || c == '_') '-' base3)
  if base4.length > cfg.max_length then ⟨rstripChars ['-', '_'] (base4.take cfg.max_length)⟩
  else ⟨base4⟩

/-- Models `optimize_filename(original_name, title)`. -/
def optimize_filename (cfg : FilenameSettings) (original_name title : String) : String :=
  if ¬ cfg.enabled then pathStem original_name
  else pyOr (optimize_filename_core cfg original_name title) "media"

/-- Models `generate_seo_slug` (enhanced, lines 809–826): the cleaned slug before
the final emptiness fallback. -/
def seo_slug_core (title : String) (max_length : Nat) : List Char :=
  let s1 := lowerAll title.data
  let s2 := s1.filter keepWordSpaceDash
  let s3 := collapse (fun c => c.isWhitespace || c == '_') '-' s2
  let s4 := collapse (fun c => c == '-') '-' s3
  let s5 := stripChars ['-'] s4
  if s5.length > max_length then rstripChars ['-'] (s5.take max_length) else s5

/-- Models `generate_seo_slug(title, max_length)`. -/
def generate_seo_slug (title : String) (max_length : Nat) : String :=
  if title = "" then "media-attachment"
  else pyOr ⟨seo_slug_core title max_length⟩ "media-attachment"

/-- Models `generate_keywords_from_title` stop-word list (enhanced, line 993). -/
def stop_words : List String :=
  ["the", "and", "or", "but", "in", "on", "at", "to", "for", "of", "with", "by", "a", "an"]

/-- Models `re.findall(r'\b\w+\b', ·)`: maximal runs of word characters. -/
def wordRuns (l : List Char) : List String :=
  ((splitOnPred (fun c => !(isWordChar c)) l).filter (· ≠ [])).map (fun g => (⟨g⟩ : String))

/-- Models `generate_keywords_from_title(title)` (enhanced, lines 983–1002). -/
def generate_keywords_from_title (enabled : Bool) (min_length max_keywords : Nat)
    (title : String) : List String :=
  if title = "" ∨ ¬ enabled then []
  else
    (wordRuns (lowerAll title.data)).foldl
      (fun acc w =>
        if w.length ≥ min_length ∧ w ∉ stop_words ∧ w ∉ acc ∧ acc.length < max_keywords
        then acc ++ [w] else acc)
      []

/-- Models `ensure_unique_slug(slug, attachment_id)` (enhanced, lines 871–904).
`taken s` models the `SELECT ID … WHERE post_name = s AND ID != attachment_id`
probe returning a row. -/
def ensure_unique_slug (taken : String → Bool) (slug : String) (attachment_id : Nat) :
    String :=
  if ¬ taken slug then slug
  else
    match ((List.range 100).map (· + 1)).find?
        (fun k => !(taken (slug ++ "-" ++ toString k))) with
    | some k => slug ++ "-" ++ toString k
    | none => slug ++ "-" ++ toString attachment_id

/-! ## File system model

The on-disk state is a map from absolute path to byte size.  `shutil.copy2`
and `img.save` become `fsWrite` (the written size is an environment
parameter where the real size is produced by an external library),
`os.remove` / `Path.unlink` become `fsErase`, and `os.rename` is an erase
of the source plus a write of the target. -/

abbrev FS := String → Option Nat

def fsWrite (fs : FS) (p : String) (n : Nat) : FS :=
  fun q => if q = p then some n else fs q

def fsErase (fs : FS) (p : String) : FS :=
  fun q => if q = p then none else fs q

/-- The backup path `f"{file_path}_backup_{timestamp}{thread_suffix}"`. -/
def backup_name_ts (file_path ts threadSuffix : String) : String :=
  file_path ++ "_backup_" ++ ts ++ threadSuffix

/-- Models `create_backup_copy_threadsafe(file_path)` (complete-2, lines 538–573):
copy to a `.tmp` suffix, verify byte-size equality, rename into place;
remove the temp artifact on mismatch.  `copiedSize` is the size the copy
actually produced on disk; a missing source makes `shutil.copy2` raise,
landing in the `except` branch before any temp file exists. -/
def create_backup_copy_threadsafe (fs : FS) (file_path ts threadSuffix : String)
    (copiedSize : Nat) : FS × Option String :=
  let backup_path := backup_name_ts file_path ts threadSuffix
  let temp := backup_name_ts file_path ts threadSuffix ++ ".tmp"
  match fs file_path with
  | none => (fs, none)
  | some original_size =>
    let fs1 := fsWrite fs temp copiedSize
    if original_size = copiedSize then
      (fsWrite (fsErase fs1 temp) backup_path copiedSize, some backup_path)
    else
      (fsErase fs1 temp, none)

/-- Models `create_backup_copy(file_path)` (complete-2, lines 1283–1305): copies
directly to the final backup path (no temp suffix); on a size mismatch it
returns `None` without removing the copied file. -/
def create_backup_copy (fs : FS) (file_path ts : String) (copiedSize : Nat) :
    FS × Option String :=
  let backup_path := file_path ++ "_backup_" ++ ts
  match fs file_path with
  | none => (fs, none)
  | some original_size =>
    let fs1 := fsWrite fs backup_path copiedSize
    if original_size ≠ copiedSize then (fs1, none)
    else (fs1, some backup_path)

/-! ## WebP conversion (size logic)

`convert_to_webp_threadsafe` (complete-2, lines 372–469).  Image decoding,
colour-mode conversion, resizing and enhancement do not affect the claims;
what is modelled is the save / size-ceiling / re-save control flow.
`encodeSize q` is the byte size the encoder produces at quality `q`. -/

structure ConvOut where
  success : Bool
  finalSize : Nat
  saves : Nat
deriving DecidableEq

def convert_to_webp_threadsafe (valid : Bool) (encodeSize : Nat → Nat)
    (quality maxSize : Nat) (outputCreated : Bool) : ConvOut :=
  if ¬ valid then ⟨false, 0, 0⟩
  else
    let s1 := encodeSize quality
    if ¬ outputCreated then ⟨false, 0, 1⟩
    else if s1 > maxSize then ⟨true, encodeSize 70, 2⟩
    else ⟨true, s1, 1⟩

/-! ## Database models

One row-set per asset.  `WPDB` holds the fields the complete-2 script
writes: `posts.guid`, the `_wp_attached_file`, `_wp_attachment_image_alt`,
`_wp_optimizer_version`, `_wp_optimizer_date` and `_semantic_permalink`
meta values, plus the `post_content` body and a site option value touched
by the `REPLACE(...)` statements. -/

structure WPDB where
  guid : String
  attached_file : String
  alt_text : String
  optimizer_version : String
  optimizer_date : String
  semantic_permalink : String
  post_content : String
  option_value : String
deriving DecidableEq

/-- Statement runner for a connection with `autocommit = True`: every
executed statement commits immediately; a MySQL error at the `k`-th
statement (0-based `failAt = some k`) leaves the first `k` statements
permanently applied and reports failure. -/
def run_autocommit {α : Type} (stmts : List (α → α)) (failAt : Option Nat) (a : α) :
    Bool × α :=
  match failAt with
  | none => (true, stmts.foldl (fun s f => f s) a)
  | some k => (false, (stmts.take k).foldl (fun s f => f s) a)

/-- Statement runner for a transactional connection (`autocommit = False`,
`commit()` at the end, `rollback()` in the error handler): on any failure
every uncommitted statement is discarded. -/
def run_transaction {α : Type} (stmts : List (α → α)) (failAt : Option Nat) (a : α) :
    Bool × α :=
  match failAt with
  | none => (true, stmts.foldl (fun s f => f s) a)
  | some _ => (false, a)

def optimizer_version_string : String := "2.1.0"

/-- The fields of the `update_info` dict built by the planning loop
(complete-2, lines 104–118); the later flags model the keys the worker
adds as it runs. -/
structure UpdateInfo where
  attachment_id : Nat
  old_filename : String
  new_filename : String
  old_guid : String
  new_guid : String
  permalink_path : String
  old_alt_text : String
  new_alt_text : Option String
  new_attached_file : String
  keywords : List String
  description : String
  needs_rename : Bool
  needs_webp : Bool
  dry_run : Bool
  webp_converted : Bool
  iptc_added : Bool
  database_updated : Bool
  database_error : Bool
  conversion_error : Option String
  processing_error : Option String
deriving DecidableEq

/-- Models `update_database_threadsafe(connection, table_prefix, update_info)`
(complete-2, lines 621–673).  The function sets `connection.autocommit =
True` before executing, so the statements run through `run_autocommit`;
on `Error` it returns `False` with whatever already committed. -/
def update_database_threadsafe (db : WPDB) (info : UpdateInfo) (nowIso : String)
    (failAt : Option Nat) : Bool × WPDB :=
  let sGuid : List (WPDB → WPDB) :=
    if info.new_guid ≠ "" then [fun d => {d with guid := info.new_guid}] else []
  let sAttached : List (WPDB → WPDB) :=
    if info.new_attached_file ≠ ""
    then [fun d => {d with attached_file := info.new_attached_file}] else []
  let sAlt : List (WPDB → WPDB) :=
    match info.new_alt_text with
    | some a => if a ≠ "" then [fun d => {d with alt_text := a}] else []
    | none => []
  let sMarkers : List (WPDB → WPDB) :=
    [fun d => {d with optimizer_version := optimizer_version_string},
     fun d => {d with optimizer_date := nowIso}]
  run_autocommit (sGuid ++ sAttached ++ sAlt ++ sMarkers) failAt db

/-- Models `update_database_urls_and_permalinks(...)` (complete-2, lines
1221–1281).  The connection here has `autocommit = False`; all six
statements commit together at the end and roll back on `Error`.  The
`REPLACE(post_content, old_guid, new_guid)` and options statements are
substring replacements on the stored text. -/
def update_database_urls_and_permalinks (db : WPDB) (old_guid new_guid : String)
    (new_attached_file : String) (new_alt_text : Option String)
    (permalink_path : String) (failAt : Option Nat) : Bool × WPDB :=
  let sMain : List (WPDB → WPDB) :=
    [fun d => {d with guid := new_guid},
     fun d => {d with attached_file := new_attached_file}]
  let sAlt : List (WPDB → WPDB) :=
    match new_alt_text with
    | some a => [fun d => {d with alt_text := a}]
    | none => []
  let sRest : List (WPDB → WPDB) :=
    [fun d => {d with semantic_permalink := permalink_path},
     fun d => {d with post_content := replaceAll d.post_content old_guid new_guid},
     fun d => {d with option_value := replaceAll d.option_value old_guid new_guid}]
  run_transaction (sMain ++ sAlt ++ sRest) failAt db

/-! ## Inventory fetch -/

inductive DbError where
  | unreachable
  | queryFailed (msg : String)
deriving DecidableEq

/-- One row of the attachment query. -/
structure AssetRecord where
  ID : Nat
  guid : String
  attached_file : String
  post_title : String
  post_excerpt : String
  post_date : String
  categories : String
  alt_text : String
deriving DecidableEq

/-- Models `get_media_attachments(connection, table_prefix)` (complete-2, lines
862–902; the enhanced variant at 772–807 is identical in this respect):
the whole query is wrapped in `try/except Error`, and the handler logs
and returns `[]`, so a failed or unreachable store yields the same value
as an empty result set. -/
def get_media_attachments (queryOutcome : Except DbError (List AssetRecord)) :
    List AssetRecord :=
  match queryOutcome with
  | .ok rows => rows
  | .error _ => []

/-! ## Planner (complete-2, `process_media_optimization_multithreaded`
lines 51–127) -/

def webp_source_extensions : List String :=
  [".jpg", ".jpeg", ".png", ".gif", ".bmp", ".tiff"]

/-- Models `urlparse(old_guid)` → `f"{scheme}://{netloc}"` for a standard
absolute URL. -/
def base_url_of (guid : String) : String :=
  joinWith "/" (((splitOnCh '/' guid.data).take 3).map (fun l => (⟨l⟩ : String)))

structure MediaTask where
  attachment_id : Nat
  old_file_path : String
  optimized_file_path : String
  update_info : UpdateInfo
deriving DecidableEq

/-- The per-record body of the planning loop.  `existsF` models
`os.path.exists`; records with an empty `attached_file` or a missing
source file are skipped (`continue`), as is a record for which none of
the four optimization conditions holds. -/
def plan_attachment (existsF : String → Bool) (rm : String → String)
    (pcfg : PermalinkSettings) (uploads : String) (r : AssetRecord) :
    Option MediaTask :=
  if r.attached_file = "" then none
  else
    let old_file_path := osJoin uploads r.attached_file
    if ¬ existsF old_file_path then none
    else
      let old_filename := pathStem r.attached_file
      let extension := strToLower (pathSuffix r.attached_file)
      let directory := pathParent r.attached_file
      let new_filename := clean_filename rm old_filename
      let new_alt_text :=
        if r.alt_text ≠ "" then some (clean_alt_text rm r.alt_text) else none
      let keywords := process_categories_to_keywords r.categories 10
      let permalink_path := generate_semantic_permalink keywords r.ID r.post_date pcfg
      let needs_rename := old_filename ≠ new_filename
      let needs_webp := extension ∈ webp_source_extensions
      let needs_alt_update :=
        r.alt_text ≠ "" ∧ r.alt_text ≠ clean_alt_text rm r.alt_text
      let has_keywords := keywords ≠ []
      if ¬ (needs_rename ∨ needs_webp ∨ needs_alt_update ∨ has_keywords) then none
      else
        let optimized_filename := new_filename ++ ".webp"
        let optimized_relative_path := joinPath directory optimized_filename
        let optimized_file_path := osJoin uploads optimized_relative_path
        let new_guid := base_url_of r.guid ++ permalink_path ++ optimized_filename
        some
          { attachment_id := r.ID,
            old_file_path := old_file_path,
            optimized_file_path := optimized_file_path,
            update_info :=
              { attachment_id := r.ID,
                old_filename := old_filename ++ extension,
                new_filename := optimized_filename,
                old_guid := r.guid,
                new_guid := new_guid,
                permalink_path := permalink_path,
                old_alt_text := r.alt_text,
                new_alt_text := new_alt_text,
                new_attached_file := optimized_relative_path,
                keywords := keywords,
                description := r.post_excerpt,
                needs_rename := needs_rename,
                needs_webp := needs_webp,
                dry_run := false, webp_converted := false, iptc_added := false,
                database_updated := false, database_error := false,
                conversion_error := none, processing_error := none } }

/-- The whole planning pass over the fetched inventory. -/
def plan_tasks (existsF : String → Bool) (rm : String → String)
    (pcfg : PermalinkSettings) (uploads : String) (rs : List AssetRecord) :
    List MediaTask :=
  rs.filterMap (plan_attachment existsF rm pcfg uploads)

/-! ## Worker (`process_single_attachment`, complete-2 lines 471–536) -/

/-- Environment outcomes a worker observes: validation result, backup copy
size, encoder behaviour, IPTC library availability/outcome, and the index
of the first failing database statement (if any). -/
structure PsaEnv where
  valid : Bool
  ts : String
  threadSuffix : String
  copiedSize : Nat
  encodeSize : Nat → Nat
  quality : Nat
  maxSize : Nat
  outputCreated : Bool
  iptcAvailable : Bool
  iptcOk : Bool
  nowIso : String
  dbFailAt : Option Nat

structure PsaOut where
  fs : FS
  db : WPDB
  info : UpdateInfo

def process_single_attachment (dry_run : Bool) (env : PsaEnv) (task : MediaTask)
    (fs : FS) (db : WPDB) : PsaOut :=
  let info := task.update_info
  if ¬ env.valid then ⟨fs, db, info⟩
  else if ¬ dry_run then
    match create_backup_copy_threadsafe fs task.old_file_path env.ts env.threadSuffix
        env.copiedSize with
    | (fs1, none) => ⟨fs1, db, info⟩
    | (fs1, some _) =>
      let conv :=
        convert_to_webp_threadsafe env.valid env.encodeSize env.quality env.maxSize
          env.outputCreated
      if conv.success then
        let fs2 := fsWrite fs1 task.optimized_file_path conv.finalSize
        let info1 := {info with webp_converted := true}
        let info2 :=
          if env.iptcAvailable = true ∧ info.keywords ≠ [] ∧ env.iptcOk = true
          then {info1 with iptc_added := true} else info1
        match update_database_threadsafe db info2 env.nowIso env.dbFailAt with
        | (true, db2) => ⟨fs2, db2, {info2 with database_updated := true}⟩
        | (false, db2) => ⟨fs2, db2, {info2 with database_error := true}⟩
      else ⟨fs1, db, {info with conversion_error := some "Conversion error"}⟩
  else ⟨fs, db, {info with dry_run := true}⟩

/-! ## Execution coordinator (complete-2, lines 142–173)

Each submitted task becomes a future; `duration` is the wall-clock time
until its worker thread finishes.  `concurrent.futures.as_completed`
yields futures in completion order, so by the time the loop calls
`future.result(timeout=300)` the future is already done: `result` returns
immediately (re-raising the worker's exception if it raised one), and
`concurrent.futures.TimeoutError` — which `result` raises only when the
future is still running after `timeout` seconds — is unreachable.  The
model therefore has no timeout outcome for any duration. -/

structure WorkFuture where
  duration : Nat
  task_info : UpdateInfo
  outcome : Except String UpdateInfo

def insertByCompletion (f : WorkFuture) : List WorkFuture → List WorkFuture
  | [] => [f]
  | g :: gs =>
    if f.duration ≤ g.duration then f :: g :: gs else g :: insertByCompletion f gs

/-- Models `as_completed`: futures in completion order. -/
def as_completed_order (futs : List WorkFuture) : List WorkFuture :=
  futs.foldr insertByCompletion []

/-- Models `future.result(timeout=300)` called on a future already yielded by
`as_completed`: the deadline never expires, the worker's outcome is
returned (or its exception re-raised). -/
def future_result (f : WorkFuture) (_timeoutSeconds : Nat) : Except String UpdateInfo :=
  f.outcome

/-- The result-collection loop for one chunk: successful results are
appended as-is; a raised exception is caught and appended as the task's
`update_info` copy with `processing_error` set. -/
def collect_chunk (chunk : List WorkFuture) : List UpdateInfo :=
  (as_completed_order chunk).map fun f =>
    match future_result f 300 with
    | .ok result => result
    | .error e => {f.task_info with processing_error := some e}

/-! ## Enhanced script (`wp_media_optimizer_enhanced.py`) -/

/-- One row returned by the enhanced `get_media_attachments` query. -/
structure EnhAttachment where
  ID : Nat
  post_title : String
  post_content : String
  post_excerpt : String
  file_path : String
deriving DecidableEq

/-- Store fields written by the enhanced script for one attachment:
the `_wp_attached_file` meta value, `posts.guid` and `posts.post_name`. -/
structure EnhDB where
  attached_file : String
  guid : String
  post_name : String
deriving DecidableEq

/-- Models `update_database_record(attachment_id, new_filename, new_path)`
(enhanced, lines 1036–1062).  The enhanced connection is opened with
`autocommit = True` (line 721), so the two UPDATE statements commit as
they execute.  The guid statement models
`REPLACE(guid, SUBSTRING_INDEX(guid, '/', -1), new_filename)`. -/
def update_database_record (db : EnhDB) (new_filename new_path : String)
    (failAt : Option Nat) : Bool × EnhDB :=
  let stmts : List (EnhDB → EnhDB) :=
    [fun d => {d with attached_file := new_path},
     fun d => {d with guid := replaceAll d.guid (lastSegment d.guid) new_filename}]
  run_autocommit stmts failAt db

/-- The enhanced configuration fields `process_attachment` reads. -/
structure EnhSettings where
  backup_originals : Bool
  filename_cfg : FilenameSettings
  permalink_enabled : Bool
  max_slug_length : Nat

/-- Environment outcomes for one enhanced `process_attachment` run. -/
structure EnhEnv where
  backupStamp : String
  convOk : Bool
  newSize : Nat
  metaOk : Bool
  permalinkDbOk : Bool
  taken : String → Bool
  dbFailAt : Option Nat

/-- Models `attachment['post_title'] or f"Media {attachment_id}"`. -/
def enh_title (att : EnhAttachment) : String :=
  if att.post_title ≠ "" then att.post_title else "Media " ++ toString att.ID

/-- Models `f"{self.optimize_filename(current_full_path.name, title)}.webp"`. -/
def enh_new_filename (cfg : EnhSettings) (att : EnhAttachment) : String :=
  optimize_filename cfg.filename_cfg (pathName att.file_path) (enh_title att) ++ ".webp"

/-- Models `str(Path(current_file_path).parent / new_filename)`. -/
def enh_new_rel (cfg : EnhSettings) (att : EnhAttachment) : String :=
  joinPath (pathParent att.file_path) (enh_new_filename cfg att)

/-- Models `self.uploads_path / current_file_path`. -/
def enh_old_full (uploads : String) (att : EnhAttachment) : String :=
  osJoin uploads att.file_path

/-- Models `current_full_path.parent / new_filename`. -/
def enh_new_full (cfg : EnhSettings) (uploads : String) (att : EnhAttachment) : String :=
  osJoin uploads (enh_new_rel cfg att)

/-- Models `current_full_path.parent / f"backup_{stem}_{timestamp}{suffix}"`. -/
def enh_backup_full (uploads : String) (att : EnhAttachment) (stamp : String) : String :=
  osJoin uploads
    (joinPath (pathParent att.file_path)
      ("backup_" ++ pathStem att.file_path ++ "_" ++ stamp ++ pathSuffix att.file_path))

structure EnhOut where
  fs : FS
  db : EnhDB
  ok : Bool
  persist : Option Bool

/-- Models `process_attachment(attachment)` (enhanced, lines 1064–1158).
Stages in source order: existence checks, optional backup, WebP
conversion (its failure aborts the item), ExifTool metadata (non-fatal,
touches only file contents), SEO permalink update (writes `post_name`
when live and the UPDATE succeeds), then — live mode only — the
`update_database_record` persist step followed **unconditionally** by the
removal of the original file whenever the converted file exists under the
new path.  `persist` records the persist step's outcome when it ran. -/
def process_attachment (dry_run : Bool) (cfg : EnhSettings) (env : EnhEnv)
    (uploads : String) (att : EnhAttachment) (fs : FS) (db : EnhDB) : EnhOut :=
  if att.file_path = "" then ⟨fs, db, false, none⟩
  else
    match fs (enh_old_full uploads att) with
    | none => ⟨fs, db, false, none⟩
    | some origSize =>
      let fs1 :=
        if cfg.backup_originals ∧ ¬ dry_run
        then fsWrite fs (enh_backup_full uploads att env.backupStamp) origSize
        else fs
      if ¬ dry_run ∧ ¬ env.convOk then ⟨fs1, db, false, none⟩
      else
        let fs2 :=
          if ¬ dry_run then fsWrite fs1 (enh_new_full cfg uploads att) env.newSize
          else fs1
        let slug :=
          ensure_unique_slug env.taken
            (generate_seo_slug (enh_title att) cfg.max_slug_length) att.ID
        let db1 :=
          if cfg.permalink_enabled ∧ ¬ dry_run ∧ env.permalinkDbOk
          then {db with post_name := slug}
          else db
        if ¬ dry_run then
          match update_database_record db1 (enh_new_filename cfg att)
              (enh_new_rel cfg att) env.dbFailAt with
          | (dbOk, db2) =>
            let fs3 :=
              if fs2 (enh_new_full cfg uploads att) ≠ none
                 ∧ enh_old_full uploads att ≠ enh_new_full cfg uploads att
              then fsErase fs2 (enh_old_full uploads att) else fs2
            ⟨fs3, db2, true, some dbOk⟩
        else ⟨fs2, db1, true, none⟩

/-! ## Concrete sample data used by witnesses and counterexamples -/

/-- Models `os.path.exists` on a disk where every planned source file exists. -/
def existsAll : String → Bool := fun _ => true

/-- The default permalink settings of `load_config`. -/
def pcfg0 : PermalinkSettings := ⟨"/media", 3, true, true⟩

/-- Two inventory rows in the same directory whose stems clean to the same
name (`"a photo"` and `"a-photo"` both clean to `"a-photo"`). -/
def recA : AssetRecord :=
  ⟨1, "https://ex.com/up/2024/a photo.jpg", "2024/a photo.jpg", "", "",
   "2024-01-02 03:04:05", "", ""⟩

def recB : AssetRecord :=
  ⟨2, "https://ex.com/up/2024/a-photo.png", "2024/a-photo.png", "", "",
   "2024-01-02 03:04:05", "", ""⟩

/-- A no-op row: already `.webp`, clean filename unchanged, no alt text,
no categories. -/
def rSkip : AssetRecord := ⟨9, "g", "2024/photo.webp", "", "", "2024-01-01", "", ""⟩

/-- An `UpdateInfo` with identifier `n` and every optional field empty. -/
def mk_info (n : Nat) : UpdateInfo :=
  ⟨n, "", "", "", "", "", "", none, "", [], "", false, false, false, false, false,
   false, false, none, none⟩

def defaultTask : MediaTask := ⟨0, "", "", mk_info 0⟩

def wpdb0 : WPDB := ⟨"G1", "F1", "A1", "V0", "D0", "P0", "content G1 tail", "opt G1 tail"⟩

def info0 : UpdateInfo :=
  { mk_info 5 with
    new_guid := "G2"
    new_attached_file := "2024/a.webp"
    new_alt_text := some "alt2" }

/-- A source file of 100 bytes. -/
def fsB : FS := fun p => if p = "src.jpg" then some 100 else none

/-- An encoder producing 20 bytes at the configured quality 85 and 15 bytes
at the fallback quality 70 — both over a 10-byte ceiling. -/
def enc0 : Nat → Nat := fun q => if 80 ≤ q then 20 else 15

/-- A worker whose thread runs for 600 seconds (10 minutes) and then
returns normally, and a sibling finishing after 5 seconds. -/
def fut_slow : WorkFuture := ⟨600, mk_info 1, .ok (mk_info 1)⟩

def fut_fast : WorkFuture := ⟨5, mk_info 2, .ok (mk_info 2)⟩

def cfg0 : EnhSettings := ⟨true, default_filename_settings, true, 100⟩

def att0 : EnhAttachment := ⟨7, "My Photo", "", "", "2024/my photo.jpg"⟩

/-- Environment where every stage succeeds. -/
def env0 : EnhEnv := ⟨"20250101", true, 55, true, true, (fun _ => false), none⟩

/-- Environment where the persist step fails on its first statement. -/
def env0f : EnhEnv := ⟨"20250101", true, 55, true, true, (fun _ => false), some 0⟩

def fs0 : FS := fun p => if p = "/up/2024/my photo.jpg" then some 100 else none

def db0 : EnhDB :=
  ⟨"2024/my photo.jpg", "https://ex.com/up/2024/my photo.jpg", "old-slug"⟩

/-! ## Helper lemmas -/

theorem append_ne_self (s t : String) (h : t.data ≠ []) : s ++ t ≠ s := by
  intro he
  have hl := congrArg String.length he
  rw [String.length_append] at hl
  have hz : t.data.length = 0 := by
    have : t.length = 0 := by omega
    exact this
  exact h (List.length_eq_zero.mp hz)

/-! ## C9 — inventory fetch on an unreachable store -/

/-- C9 (amended): the fetch returns `[]` both when the query fails (the
`except Error` handler returns an empty list) and when it succeeds with no
rows; no `SourceUnavailable`-style error leaves the function. -/
theorem C9_fetch_error_returns_empty (e : DbError) (rows : List AssetRecord) :
    get_media_attachments (Except.error e) = []
    ∧ get_media_attachments (Except.ok rows) = rows :=
  ⟨rfl, rfl⟩

/-- C9 counterexample: an unreachable store produces a value identical to a
successful query matching nothing, so the claim that an unreachable store is
never reported as merely an empty inventory is false. -/
theorem C9_unreachable_equals_empty :
    get_media_attachments (Except.error DbError.unreachable)
      = get_media_attachments (Except.ok ([] : List AssetRecord)) := rfl

/-! ## C4 — the per-item 5-minute deadline -/

/-- C4: evaluating the result-collection loop on a work item whose thread
runs for 600 seconds — twice the claimed 5-minute (300 s) deadline — and
returns normally.  The item is collected as an ordinary successful result
with no `processing_error`, not as a failed result carrying a `Timeout`
error: `future.result(timeout=300)` is only invoked on futures already
completed by `as_completed`, so the deadline can never expire (and an item
that never completes would instead block `as_completed`, and with it the
collection of every later chunk). -/
theorem C4_deadline_never_fires :
    collect_chunk [fut_slow, fut_fast] = [mk_info 2, mk_info 1]
    ∧ (mk_info 1).processing_error = none
    ∧ 300 < fut_slow.duration := by decide

/-! ## C7 — re-encode on oversized output -/

/-- C7 (amended): when the first encode exceeds the ceiling the stage
re-encodes exactly once at the fixed fallback quality 70, but the item is
then reported successful unconditionally — the ceiling is never re-checked,
so a still-oversized second attempt does not yield `EncodeFailed`. -/
theorem C7_single_reencode_always_succeeds (encodeSize : Nat → Nat)
    (quality maxSize : Nat) :
    (convert_to_webp_threadsafe true encodeSize quality maxSize true).success = true
    ∧ (convert_to_webp_threadsafe true encodeSize quality maxSize true).saves
        = (if encodeSize quality > maxSize then 2 else 1)
    ∧ (convert_to_webp_threadsafe true encodeSize quality maxSize true).finalSize
        = (if encodeSize quality > maxSize then encodeSize 70 else encodeSize quality) := by
  unfold convert_to_webp_threadsafe
  by_cases hb : encodeSize quality > maxSize <;> simp [hb]

/-- C7 counterexample: with `enc0` (20 bytes at quality 85, 15 bytes at
quality 70) against a 10-byte ceiling, the re-encoded output is still over
the ceiling, yet the stage reports success — not `EncodeFailed` as the
claim states. -/
theorem C7_still_oversized_reported_success :
    (convert_to_webp_threadsafe true enc0 85 10 true).success = true
    ∧ (convert_to_webp_threadsafe true enc0 85 10 true).saves = 2
    ∧ 10 < (convert_to_webp_threadsafe true enc0 85 10 true).finalSize := by decide

/-! ## C6 — backup integrity and cleanup -/

/-- C6 (amended): the thread-safe backup behaves exactly as the claim says
(write to a `.tmp` suffix, verify sizes, rename into place; on success the
backup holds the source's byte size and no temp file remains, and on any
failure path the temp artifact is gone and the backup path untouched), but
the plain `create_backup_copy` used by the single-threaded pass copies
directly to the final backup path and leaves that file behind on a size
mismatch. -/
theorem C6_threadsafe_backup_verified (fs : FS) (fp ts suf : String) (copied n : Nat)
    (h : fs fp = some n) :
    ((create_backup_copy_threadsafe fs fp ts suf copied).2
        = some (backup_name_ts fp ts suf)
      ∨ (create_backup_copy_threadsafe fs fp ts suf copied).2 = none)
    ∧ ((create_backup_copy_threadsafe fs fp ts suf copied).2
          = some (backup_name_ts fp ts suf) →
        (create_backup_copy_threadsafe fs fp ts suf copied).1 (backup_name_ts fp ts suf)
            = some n
        ∧ (create_backup_copy_threadsafe fs fp ts suf copied).1
            (backup_name_ts fp ts suf ++ ".tmp") = none)
    ∧ ((create_backup_copy_threadsafe fs fp ts suf copied).2 = none →
        (create_backup_copy_threadsafe fs fp ts suf copied).1
            (backup_name_ts fp ts suf ++ ".tmp") = none
        ∧ (create_backup_copy_threadsafe fs fp ts suf copied).1 (backup_name_ts fp ts suf)
            = fs (backup_name_ts fp ts suf)) := by
  have hne : backup_name_ts fp ts suf ++ ".tmp" ≠ backup_name_ts fp ts suf :=
    append_ne_self _ _ (by decide)
  by_cases hc : n = copied
  · refine ⟨Or.inl ?_, fun _ => ⟨?_, ?_⟩, fun hn => ?_⟩ <;>
      simp_all [create_backup_copy_threadsafe, h, hc, fsWrite, fsErase, hne]
  · refine ⟨Or.inr ?_, fun hs => ?_, fun _ => ⟨?_, ?_⟩⟩ <;>
      simp_all [create_backup_copy_threadsafe, h, hc, fsWrite, fsErase, hne, Ne.symm hne]

/-- C6 witness: a 100-byte source backed up with a matching 100-byte copy. -/
theorem C6_threadsafe_backup_verified_witness :
    (create_backup_copy_threadsafe fsB "src.jpg" "TS" "_t1" 100).2
        = some (backup_name_ts "src.jpg" "TS" "_t1")
    ∧ (create_backup_copy_threadsafe fsB "src.jpg" "TS" "_t1" 100).1
        (backup_name_ts "src.jpg" "TS" "_t1") = some 100
    ∧ (create_backup_copy_threadsafe fsB "src.jpg" "TS" "_t1" 100).1
        (backup_name_ts "src.jpg" "TS" "_t1" ++ ".tmp") = none := by
  have h := C6_threadsafe_backup_verified fsB "src.jpg" "TS" "_t1" 100 100 (by decide)
  exact ⟨by decide, (h.2.1 (by decide)).1, (h.2.1 (by decide)).2⟩

/-- C6 counterexample: `create_backup_copy` (complete-2, lines 1283–1305)
on a 100-byte source whose copy came out at 90 bytes reports failure but
leaves the 90-byte backup file on disk — there is no temp suffix and no
removal, contradicting "removes the temporary artifact, leaving no backup
file behind". -/
theorem C6_plain_backup_leaves_file :
    (create_backup_copy fsB "src.jpg" "TS" 90).2 = none
    ∧ (create_backup_copy fsB "src.jpg" "TS" 90).1 "src.jpg_backup_TS" = some 90 := by
  decide

/-! ## C3 — per-asset persist transaction -/

/-- C3 (amended): only the single-threaded persist
(`update_database_urls_and_permalinks`) runs its writes in one per-asset
transaction — any statement failure rolls back and leaves the store
unchanged, success applies all writes — and in both variants a failure is
surfaced as a per-item `False` return rather than an exception aborting
the run.  The thread-safe persist (`update_database_threadsafe`) instead
enables `autocommit`, so a failure part-way leaves the earlier writes
committed: failing at the second statement leaves the guid already set. -/
theorem C3_persist_transaction_amended (db : WPDB) (og ng naf pp nowIso : String)
    (nalt : Option String) (info : UpdateInfo) (k : Nat) :
    (update_database_urls_and_permalinks db og ng naf nalt pp (some k) = (false, db))
    ∧ ((update_database_urls_and_permalinks db og ng naf nalt pp none).1 = true)
    ∧ (info.new_guid ≠ "" →
        (update_database_threadsafe db info nowIso (some 1)).1 = false
        ∧ (update_database_threadsafe db info nowIso (some 1)).2.guid = info.new_guid) := by
  refine ⟨rfl, rfl, fun hg => ?_⟩
  unfold update_database_threadsafe run_autocommit
  simp [hg]

/-- C3 witness: the amended statement at the concrete store `wpdb0`. -/
theorem C3_persist_transaction_amended_witness :
    (update_database_threadsafe wpdb0 info0 "2025" (some 1)).1 = false
    ∧ (update_database_threadsafe wpdb0 info0 "2025" (some 1)).2.guid
        = info0.new_guid := by
  have h := C3_persist_transaction_amended wpdb0 "G1" "G2" "f" "/m/" "2025" none info0 1
  exact h.2.2 (by decide)

/-- C3 counterexample: a thread-safe persist that fails at its second
statement returns failure, yet the store is not left unchanged — the guid
write has already committed (`autocommit = True`), so the rollback the
claim describes never happens. -/
theorem C3_failed_persist_mutates_store :
    (update_database_threadsafe wpdb0 info0 "2025" (some 1)).1 = false
    ∧ (update_database_threadsafe wpdb0 info0 "2025" (some 1)).2.guid = "G2"
    ∧ wpdb0.guid = "G1"
    ∧ (update_database_threadsafe wpdb0 info0 "2025" (some 1)).2 ≠ wpdb0 := by decide

/-! ## C10 — cleaning functions never return an empty name -/

/-- C10: every input — the empty string and strings whose characters are
all removed by cleaning included — yields a non-empty result, with the
fixed fallbacks `"optimized-media"` (`clean_filename`), `"media"`
(`optimize_filename` under the default, cleaning-enabled configuration)
and `"media-attachment"` (`generate_seo_slug`); whenever the cleaning
pipeline empties the name, exactly that fallback is returned. -/
theorem C10_cleaning_nonempty_fallbacks (rm : String → String) (s t o : String)
    (m : Nat) :
    clean_filename rm s ≠ ""
    ∧ clean_filename rm "" = "optimized-media"
    ∧ (clean_filename_core rm s = "" → clean_filename rm s = "optimized-media")
    ∧ optimize_filename default_filename_settings o t ≠ ""
    ∧ (optimize_filename_core default_filename_settings o t = "" →
        optimize_filename default_filename_settings o t = "media")
    ∧ generate_seo_slug t m ≠ ""
    ∧ generate_seo_slug "" m = "media-attachment"
    ∧ (seo_slug_core t m = [] → generate_seo_slug t m = "media-attachment") := by
  refine ⟨?_, rfl, fun hc => ?_, ?_, fun ho => ?_, ?_, rfl, fun ht => ?_⟩
  · by_cases hs : s = "" <;> simp [clean_filename, pyOr, hs] <;> split <;> simp_all
  · by_cases hs : s = "" <;> simp [clean_filename, pyOr, hs, hc]
  · simp [optimize_filename, default_filename_settings, pyOr]
    split <;> simp_all
  · simp_all [optimize_filename, default_filename_settings, pyOr]
  · by_cases htt : t = "" <;> simp [generate_seo_slug, pyOr, htt] <;> split <;> simp_all
  · by_cases htt : t = "" <;> simp [generate_seo_slug, pyOr, htt, ht]

/-- C10 witness: inputs whose characters are entirely removed by cleaning
(`"!!!"`, a title of `"???"`) hit each fallback. -/
theorem C10_cleaning_nonempty_fallbacks_witness :
    clean_filename id "!!!" = "optimized-media"
    ∧ optimize_filename default_filename_settings "x.jpg" "???" = "media"
    ∧ generate_seo_slug "???" 100 = "media-attachment" := by
  have h := C10_cleaning_nonempty_fallbacks id "!!!" "???" "x.jpg" 100
  exact ⟨h.2.2.1 (by decide), h.2.2.2.2.1 (by decide), h.2.2.2.2.2.2.2 (by decide)⟩

/-! ## C8 — dry-run purity -/

/-- C8: a dry-run item leaves the file system and the store untouched in
both scripts, while still producing the per-item result: the complete-2
worker returns the task's `update_info` (flagged `dry_run` when validation
passes) — the same shape a live run returns — and the enhanced
`process_attachment` likewise changes neither state. -/
theorem C8_dry_run_pure (env : PsaEnv) (task : MediaTask) (fs : FS) (db : WPDB)
    (cfg : EnhSettings) (eenv : EnhEnv) (uploads : String) (att : EnhAttachment)
    (fs2 : FS) (db2 : EnhDB) :
    ((process_single_attachment true env task fs db).fs = fs
      ∧ (process_single_attachment true env task fs db).db = db
      ∧ (process_single_attachment true env task fs db).info
          = (if env.valid then {task.update_info with dry_run := true}
             else task.update_info))
    ∧ ((process_attachment true cfg eenv uploads att fs2 db2).fs = fs2
      ∧ (process_attachment true cfg eenv uploads att fs2 db2).db = db2) := by
  constructor
  · cases hv : env.valid <;> simp [process_single_attachment, hv]
  · by_cases hp : att.file_path = ""
    · simp [process_attachment, hp]
    · cases hm : fs2 (enh_old_full uploads att) <;>
        simp [process_attachment, hp, hm]

/-! ## C5 — planner emit condition -/

/-- The worker-side alt-text condition `old_alt_text and old_alt_text !=
new_alt_text` coincides with "the cleaned alternate-text differs from the
stored one", because cleaning an empty alt text yields the empty string. -/
theorem alt_update_iff (rm : String → String) (a : String) :
    (a ≠ "" ∧ a ≠ clean_alt_text rm a) ↔ clean_alt_text rm a ≠ a := by
  constructor
  · rintro ⟨-, hne⟩
    exact Ne.symm hne
  · intro hne
    refine ⟨?_, Ne.symm hne⟩
    rintro rfl
    exact hne rfl

/-- C5: for a record whose `attached_file` is set and whose source file
exists, the planner emits a WorkItem exactly when the cleaned filename
differs, or the (lower-cased) extension is one of the formats converted to
WebP, or the cleaned alternate-text differs from the stored one, or the
derived keyword set is non-empty; otherwise the record is skipped. -/
theorem C5_plan_emits_iff (existsF : String → Bool) (rm : String → String)
    (pcfg : PermalinkSettings) (uploads : String) (r : AssetRecord)
    (h1 : r.attached_file ≠ "")
    (h2 : existsF (osJoin uploads r.attached_file) = true) :
    (plan_attachment existsF rm pcfg uploads r).isSome = true ↔
      (clean_filename rm (pathStem r.attached_file) ≠ pathStem r.attached_file
       ∨ strToLower (pathSuffix r.attached_file) ∈ webp_source_extensions
       ∨ clean_alt_text rm r.alt_text ≠ r.alt_text
       ∨ process_categories_to_keywords r.categories 10 ≠ []) := by
  have hbr :
      (pathStem r.attached_file ≠ clean_filename rm (pathStem r.attached_file)
       ∨ strToLower (pathSuffix r.attached_file) ∈ webp_source_extensions
       ∨ (r.alt_text ≠ "" ∧ r.alt_text ≠ clean_alt_text rm r.alt_text)
       ∨ process_categories_to_keywords r.categories 10 ≠ []) ↔
      (clean_filename rm (pathStem r.attached_file) ≠ pathStem r.attached_file
       ∨ strToLower (pathSuffix r.attached_file) ∈ webp_source_extensions
       ∨ clean_alt_text rm r.alt_text ≠ r.alt_text
       ∨ process_categories_to_keywords r.categories 10 ≠ []) := by
    rw [alt_update_iff, ne_comm]
  rw [← hbr]
  simp only [plan_attachment, if_neg h1, h2]
  by_cases hcd :
      (pathStem r.attached_file ≠ clean_filename rm (pathStem r.attached_file)
       ∨ strToLower (pathSuffix r.attached_file) ∈ webp_source_extensions
       ∨ (r.alt_text ≠ "" ∧ r.alt_text ≠ clean_alt_text rm r.alt_text)
       ∨ process_categories_to_keywords r.categories 10 ≠ []) <;>
    simp [hcd]

/-- C5 witness: a no-op record — already `.webp`, cleaned filename equal to
its stem, empty alt text, no categories — is skipped. -/
theorem C5_plan_emits_iff_witness :
    (plan_attachment existsAll id pcfg0 "/up" rSkip).isSome = false := by
  have h := C5_plan_emits_iff existsAll id pcfg0 "/up" rSkip (by decide) (by decide)
  rw [Bool.eq_false_iff]
  intro hs
  exact absurd (h.mp hs) (by decide)

/-! ## C2 — destination-path uniqueness

Supporting lemmas: a cleaned filename contains no `/`, and the planner's
destination `uploads ++ "/" ++ joinPath dir (name ++ ".webp")` determines
`dir` and `name` uniquely for slash-free names. -/

theorem append_cons_inj {α : Type} (x : α) :
    ∀ (a1 a2 b1 b2 : List α), x ∉ a1 → x ∉ a2 →
      a1 ++ x :: b1 = a2 ++ x :: b2 → a1 = a2 ∧ b1 = b2 := by
  intro a1
  induction a1 with
  | nil =>
    intro a2 b1 b2 _ h2 h
    cases a2 with
    | nil => simpa using h
    | cons c cs =>
      simp only [List.nil_append, List.cons_append, List.cons.injEq] at h
      rcases h with ⟨rfl, -⟩
      exact absurd (List.mem_cons_self x cs) h2
  | cons c cs ih =>
    intro a2 b1 b2 h1 h2 h
    cases a2 with
    | nil =>
      simp only [List.cons_append, List.nil_append, List.cons.injEq] at h
      rcases h with ⟨rfl, -⟩
      exact absurd (List.mem_cons_self c cs) h1
    | cons d ds =>
      simp only [List.cons_append, List.cons.injEq] at h
      obtain ⟨rfl, h'⟩ := h
      have hr := ih ds b1 b2 (fun hm => h1 (List.mem_cons_of_mem _ hm))
        (fun hm => h2 (List.mem_cons_of_mem _ hm)) h'
      exact ⟨by rw [hr.1], hr.2⟩

theorem mem_collapseRuns {c : Char} (p : Char → Bool) (r : Char) :
    ∀ (l : List Char) (b : Bool), c ∈ collapseRuns p r l b → c ∈ l ∨ c = r := by
  intro l
  induction l with
  | nil => intro b h; simp [collapseRuns] at h
  | cons d ds ih =>
    intro b h
    simp only [collapseRuns] at h
    split at h
    · split at h
      · rcases ih true h with h' | h'
        · exact Or.inl (List.mem_cons_of_mem _ h')
        · exact Or.inr h'
      · rcases List.mem_cons.mp h with h' | h'
        · exact Or.inr h'
        · rcases ih true h' with h'' | h''
          · exact Or.inl (List.mem_cons_of_mem _ h'')
          · exact Or.inr h''
    · rcases List.mem_cons.mp h with h' | h'
      · exact Or.inl (h' ▸ List.mem_cons_self d ds)
      · rcases ih false h' with h'' | h''
        · exact Or.inl (List.mem_cons_of_mem _ h'')
        · exact Or.inr h''

theorem mem_of_mem_dropWhile {c : Char} {p : Char → Bool} {l : List Char}
    (h : c ∈ l.dropWhile p) : c ∈ l :=
  (List.dropWhile_sublist p).subset h

theorem mem_of_mem_dropEdge {c : Char} {p : Char → Bool} {l : List Char}
    (h : c ∈ dropEdge p l) : c ∈ l := by
  unfold dropEdge at h
  rw [List.mem_reverse] at h
  have h1 := mem_of_mem_dropWhile h
  rw [List.mem_reverse] at h1
  exact mem_of_mem_dropWhile h1

theorem toLower_eq_slash {c : Char} (h : c.toLower = '/') : c = '/' := by
  have h' : (if c.toNat ≥ 65 ∧ c.toNat ≤ 90 then Char.ofNat (c.toNat + 32) else c) = '/' := h
  by_cases hr : c.toNat ≥ 65 ∧ c.toNat ≤ 90
  · exfalso
    rw [if_pos hr] at h'
    have hv : (c.toNat + 32).isValidChar := Or.inl (by omega)
    rw [Char.ofNat, dif_pos hv] at h'
    have h47 : c.toNat + 32 = 47 := congrArg Char.toNat h'
    omega
  · rw [if_neg hr] at h'
    exact h'

theorem no_slash_clean_filename (rm : String → String) (s : String) :
    '/' ∉ (clean_filename rm s).data := by
  unfold clean_filename
  split
  · decide
  · unfold pyOr
    split
    · decide
    · unfold clean_filename_core
      intro hmem
      simp only [lowerAll, List.mem_map] at hmem
      obtain ⟨d, hd, hdl⟩ := hmem
      obtain rfl := toLower_eq_slash hdl
      unfold stripChars at hd
      have h1 := mem_of_mem_dropEdge hd
      unfold collapse at h1
      rcases mem_collapseRuns _ _ _ _ h1 with h2 | h2
      · rcases mem_collapseRuns _ _ _ _ h2 with h3 | h3
        · exact absurd (List.of_mem_filter h3) (by decide)
        · exact absurd h3 (by decide)
      · exact absurd h2 (by decide)

/-- For a task the planner actually emitted, the destination is the source
directory joined with the cleaned stem plus `.webp`, under `uploads`. -/
theorem plan_attachment_dest (existsF : String → Bool) (rm : String → String)
    (pcfg : PermalinkSettings) (uploads : String) (r : AssetRecord) (t : MediaTask)
    (h : plan_attachment existsF rm pcfg uploads r = some t) :
    t.optimized_file_path
      = osJoin uploads (joinPath (pathParent r.attached_file)
          (clean_filename rm (pathStem r.attached_file) ++ ".webp")) := by
  simp only [plan_attachment] at h
  repeat' split at h
  all_goals cases h
  all_goals rfl

/-- A string of the form `D ++ "/" ++ Y` with `/`-free `Y` determines `D`
and `Y`: the split is at the last slash. -/
theorem last_slash_split (D1 D2 Y1 Y2 : List Char)
    (hY1 : '/' ∉ Y1) (hY2 : '/' ∉ Y2)
    (h : (D1 ++ ['/']) ++ Y1 = (D2 ++ ['/']) ++ Y2) : D1 = D2 ∧ Y1 = Y2 := by
  have h' : Y1.reverse ++ '/' :: D1.reverse = Y2.reverse ++ '/' :: D2.reverse := by
    have h0 := congrArg List.reverse h
    simp only [List.reverse_append, List.reverse_cons, List.reverse_nil,
      List.nil_append, List.append_assoc, List.singleton_append] at h0
    simpa [List.append_assoc] using h0
  have hs := append_cons_inj '/' Y1.reverse Y2.reverse D1.reverse D2.reverse
    (by rw [List.mem_reverse]; exact hY1) (by rw [List.mem_reverse]; exact hY2) h'
  exact ⟨List.reverse_inj.mp hs.2, List.reverse_inj.mp hs.1⟩

theorem dest_path_inj (uploads d1 d2 n1 n2 : String)
    (h1 : '/' ∉ n1.data) (h2 : '/' ∉ n2.data) :
    osJoin uploads (joinPath d1 (n1 ++ ".webp"))
        = osJoin uploads (joinPath d2 (n2 ++ ".webp"))
      ↔ (d1 = d2 ∧ n1 = n2) := by
  have cancel_webp : ∀ a b : String, a ++ ".webp" = b ++ ".webp" → a = b := by
    intro a b hab
    have hd := congrArg String.data hab
    rw [String.data_append, String.data_append] at hd
    exact String.ext (List.append_cancel_right hd)
  have slash_in : ∀ d x : String, '/' ∈ ((d ++ "/") ++ x).data := by
    intro d x
    rw [String.data_append, String.data_append]
    exact List.mem_append_left _ (List.mem_append_right _ (by decide))
  have no_slash_webp : ∀ n : String, '/' ∉ n.data → '/' ∉ (n ++ ".webp").data := by
    intro n hn hmem
    rw [String.data_append] at hmem
    rcases List.mem_append.mp hmem with hh | hh
    · exact hn hh
    · exact absurd hh (by decide)
  constructor
  · intro h
    have hx : joinPath d1 (n1 ++ ".webp") = joinPath d2 (n2 ++ ".webp") := by
      have hd := congrArg String.data h
      rw [osJoin, osJoin, String.data_append, String.data_append] at hd
      exact String.ext (List.append_cancel_left hd)
    by_cases hd1 : d1 = "." <;> by_cases hd2 : d2 = "."
    · rw [joinPath, if_pos hd1, joinPath, if_pos hd2] at hx
      exact ⟨hd1.trans hd2.symm, cancel_webp _ _ hx⟩
    · exfalso
      rw [joinPath, if_pos hd1, joinPath, if_neg hd2] at hx
      exact no_slash_webp n1 h1 (hx ▸ slash_in d2 (n2 ++ ".webp"))
    · exfalso
      rw [joinPath, if_neg hd1, joinPath, if_pos hd2] at hx
      exact no_slash_webp n2 h2 (hx ▸ slash_in d1 (n1 ++ ".webp"))
    · rw [joinPath, if_neg hd1, joinPath, if_neg hd2] at hx
      have hdata : (d1.data ++ ['/']) ++ (n1 ++ ".webp").data
          = (d2.data ++ ['/']) ++ (n2 ++ ".webp").data := by
        have h0 := congrArg String.data hx
        simp only [String.data_append] at h0
        simpa [List.append_assoc] using h0
      obtain ⟨hD, hY⟩ := last_slash_split _ _ _ _
        (no_slash_webp n1 h1) (no_slash_webp n2 h2) hdata
      exact ⟨String.ext hD, cancel_webp _ _ (String.ext hY)⟩
  · rintro ⟨rfl, rfl⟩
    rfl

/-- C2 (amended): the planner derives each WorkItem's destination purely
from the record's parent directory and cleaned filename stem — two emitted
WorkItems share a destination path exactly when those two components
coincide — and performs no uniqueness enforcement or collision check of
its own, so records in one directory whose stems clean to the same name
receive the same destination. -/
theorem C2_destination_collision_iff (existsF : String → Bool) (rm : String → String)
    (pcfg : PermalinkSettings) (uploads : String) (r1 r2 : AssetRecord)
    (t1 t2 : MediaTask)
    (e1 : plan_attachment existsF rm pcfg uploads r1 = some t1)
    (e2 : plan_attachment existsF rm pcfg uploads r2 = some t2) :
    t1.optimized_file_path = t2.optimized_file_path ↔
      (pathParent r1.attached_file = pathParent r2.attached_file
       ∧ clean_filename rm (pathStem r1.attached_file)
           = clean_filename rm (pathStem r2.attached_file)) := by
  rw [plan_attachment_dest existsF rm pcfg uploads r1 t1 e1,
    plan_attachment_dest existsF rm pcfg uploads r2 t2 e2]
  exact dest_path_inj uploads _ _ _ _
    (no_slash_clean_filename rm _) (no_slash_clean_filename rm _)

/-- C2 witness: the two concrete records `recA`/`recB` (same directory,
stems cleaning to the same name) are assigned equal destinations. -/
theorem C2_destination_collision_iff_witness :
    ((plan_attachment existsAll id pcfg0 "/up" recA).getD defaultTask).optimized_file_path
      = ((plan_attachment existsAll id pcfg0 "/up" recB).getD
          defaultTask).optimized_file_path := by
  have h := C2_destination_collision_iff existsAll id pcfg0 "/up" recA recB
    ((plan_attachment existsAll id pcfg0 "/up" recA).getD defaultTask)
    ((plan_attachment existsAll id pcfg0 "/up" recB).getD defaultTask)
    (by decide) (by decide)
  exact h.mpr ⟨by decide, by decide⟩

/-- C2 counterexample: one planning pass over the two-record inventory
`[recA, recB]` emits two WorkItems with distinct asset identifiers but the
same destination path `/up/2024/a-photo.webp`, so destination paths are
not pairwise distinct. -/
theorem C2_distinct_items_same_destination :
    (plan_tasks existsAll id pcfg0 "/up" [recA, recB]).map MediaTask.optimized_file_path
      = ["/up/2024/a-photo.webp", "/up/2024/a-photo.webp"]
    ∧ (plan_tasks existsAll id pcfg0 "/up" [recA, recB]).map MediaTask.attachment_id
      = [1, 2] := by decide

/-! ## C1 — persist/rename consistency -/

/-- C1 (amended): when the enhanced persist step is recorded successful,
the store reference indeed points to the converted file, which exists on
disk at the new path.  But when the persist step fails the original file
does **not** remain at its old path: `process_attachment` removes it
whenever the converted file exists under the new path, regardless of the
persist outcome, so the asset becomes visible only under the new path
while (on a failure before the first write) the store still references the
old one. -/
theorem C1_persist_reference_amended (cfg : EnhSettings) (env : EnhEnv)
    (uploads : String) (att : EnhAttachment) (fs : FS) (db : EnhDB) :
    ((process_attachment false cfg env uploads att fs db).persist = some true →
      (process_attachment false cfg env uploads att fs db).db.attached_file
          = enh_new_rel cfg att
      ∧ (process_attachment false cfg env uploads att fs db).fs
          (enh_new_full cfg uploads att) ≠ none)
    ∧ ((process_attachment false cfg env uploads att fs db).persist = some false →
        enh_old_full uploads att ≠ enh_new_full cfg uploads att →
        (process_attachment false cfg env uploads att fs db).fs
          (enh_old_full uploads att) = none)
    ∧ (env.dbFailAt = some 0 →
        (process_attachment false cfg env uploads att fs db).db.attached_file
          = db.attached_file) := by
  by_cases hp : att.file_path = ""
  · simp [process_attachment, hp]
  · cases hm : fs (enh_old_full uploads att) with
    | none => simp [process_attachment, hp, hm]
    | some origSize =>
      cases hc : env.convOk with
      | false => simp [process_attachment, hp, hm, hc]
      | true =>
        by_cases hone : enh_old_full uploads att = enh_new_full cfg uploads att
        · cases hfa : env.dbFailAt <;>
            simp_all [process_attachment, hp, hm, hc, update_database_record,
              run_autocommit, fsWrite, fsErase, apply_ite EnhDB.attached_file]
        · cases hfa : env.dbFailAt <;>
            simp_all [process_attachment, hp, hm, hc, update_database_record,
              run_autocommit, fsWrite, fsErase, apply_ite EnhDB.attached_file,
              Ne.symm hone]

/-- C1 witness: a fully successful run on the concrete asset `att0` — the
persist step is recorded successful, the store reference equals the new
relative path, and a file exists at that path. -/
theorem C1_persist_reference_amended_witness :
    (process_attachment false cfg0 env0 "/up" att0 fs0 db0).persist = some true
    ∧ (process_attachment false cfg0 env0 "/up" att0 fs0 db0).db.attached_file
        = enh_new_rel cfg0 att0
    ∧ (process_attachment false cfg0 env0 "/up" att0 fs0 db0).fs
        (enh_new_full cfg0 "/up" att0) ≠ none := by
  have h := C1_persist_reference_amended cfg0 env0 "/up" att0 fs0 db0
  exact ⟨by decide, (h.1 (by decide)).1, (h.1 (by decide)).2⟩

/-- C1 counterexample: with the persist step failing on its first statement
(`env0f`), the item ends with a failed persist and the store still
referencing the old path `2024/my photo.jpg` — yet the file at that old
path has been deleted, and the asset exists only under the new path the
store does not know about.  This contradicts the claim that on persist
failure the asset's file remains visible under its old path. -/
theorem C1_failed_persist_removes_old_path :
    (process_attachment false cfg0 env0f "/up" att0 fs0 db0).persist = some false
    ∧ fs0 (enh_old_full "/up" att0) = some 100
    ∧ (process_attachment false cfg0 env0f "/up" att0 fs0 db0).db.attached_file
        = db0.attached_file
    ∧ (process_attachment false cfg0 env0f "/up" att0 fs0 db0).fs
        (enh_old_full "/up" att0) = none
    ∧ (process_attachment false cfg0 env0f "/up" att0 fs0 db0).fs
        (enh_new_full cfg0 "/up" att0) ≠ none := by decide

end WpOpt
